import Mathlib

/-!
Verification development for the booking-api repository (a NestJS CRUD
service for `User` records).  The TypeScript sources are shallowly
embedded: strings are `List Char`, JavaScript `Date` values are epoch
milliseconds (`Nat`), thrown exceptions are `Except` errors, and the
Prisma-backed store is a list of rows threaded explicitly.  Backend
availability is a boolean parameter: when it is `false` every Prisma
call raises a storage error, mirroring an unreachable database.
-/

set_option maxRecDepth 4096

/-- Strings of the embedded program, as lists of characters. -/
abbrev Str := List Char

/-- JavaScript `String.prototype.trim`: removes leading and trailing
whitespace (modelled with `Char.isWhitespace`). -/
def jsTrim (s : Str) : Str :=
  ((s.dropWhile Char.isWhitespace).reverse.dropWhile Char.isWhitespace).reverse

/-- A character allowed inside a segment of the entity email regular
expression `[^\s@]`: neither whitespace nor the at-sign. -/
def emailChar (c : Char) : Bool :=
  !c.isWhitespace && c != '@'

/-- Embeds `User.isValidEmail` from `user.entity.ts`: the test of the regular
expression `^[^\s@]+@[^\s@]+\.[^\s@]+$`.  The string must consist of a
nonempty whitespace-free at-sign-free local part, one `@`, and a domain
part that is whitespace-free, at-sign-free, and contains a dot that is
neither its first nor its last character. -/
def isValidEmail (s : Str) : Bool :=
  match s.dropWhile (fun c => c != '@') with
  | [] => false
  | _ :: domain =>
      !(s.takeWhile (fun c => c != '@')).isEmpty &&
      (s.takeWhile (fun c => c != '@')).all (fun c => !c.isWhitespace) &&
      domain.all emailChar &&
      (domain.drop 1).dropLast.contains '.'

/-- The `User` domain entity: the five fields assigned by the
constructor in `user.entity.ts` (timestamps as epoch milliseconds). -/
structure UserData where
  id : Str
  email : Str
  name : Str
  createdAt : Nat
  updatedAt : Nat
  deriving DecidableEq, Repr

/-- Decidable equality of `Except` results, for evaluating concrete
runs of the embedded program. -/
instance instDecEqExcept {ε α : Type} [DecidableEq ε] [DecidableEq α] :
    DecidableEq (Except ε α) :=
  fun x y =>
    match x, y with
    | .error a, .error b =>
        if h : a = b then .isTrue (by rw [h])
        else .isFalse (by intro hc; cases hc; exact h rfl)
    | .error _, .ok _ => .isFalse (by intro hc; cases hc)
    | .ok _, .error _ => .isFalse (by intro hc; cases hc)
    | .ok a, .ok b =>
        if h : a = b then .isTrue (by rw [h])
        else .isFalse (by intro hc; cases hc; exact h rfl)

/-- Embeds `User.validate` from `user.entity.ts`: the six business rules in
their fixed source order, failing with the first violated rule's
message.  (`!this.id` on a string is subsumed by the trimmed-emptiness
test, since only the empty string is falsy.) -/
def validate (u : UserData) : Except String Unit :=
  if (jsTrim u.id).isEmpty then .error "User ID cannot be empty"
  else if (jsTrim u.email).isEmpty then .error "User email cannot be empty"
  else if !isValidEmail u.email then .error "User email must be a valid email address"
  else if (jsTrim u.name).isEmpty then .error "User name cannot be empty"
  else if u.name.length < 2 then .error "User name must be at least 2 characters long"
  else if u.name.length > 100 then .error "User name must not exceed 100 characters"
  else .ok ()

/-- The `User` constructor: assigns the five fields verbatim and then
runs `validate`, so construction either yields the fully assigned value
or fails with the first violated rule's message. -/
def userNew (id email name : Str) (createdAt updatedAt : Nat) :
    Except String UserData :=
  match validate ⟨id, email, name, createdAt, updatedAt⟩ with
  | .error m => .error m
  | .ok _ => .ok ⟨id, email, name, createdAt, updatedAt⟩

/-- Embeds `User.updateName`: builds a new instance with the new name, the old
id, email and createdAt, and a fresh updatedAt; the constructor re-runs
the full validator. -/
def UserData.updateName (u : UserData) (newName : Str) (now : Nat) :
    Except String UserData :=
  userNew u.id u.email newName u.createdAt now

/-- Embeds `User.updateEmail`: builds a new instance with the new email, the
old id, name and createdAt, and a fresh updatedAt; the constructor
re-runs the full validator. -/
def UserData.updateEmail (u : UserData) (newEmail : Str) (now : Nat) :
    Except String UserData :=
  userNew u.id newEmail u.name u.createdAt now

/-- The error taxonomy of the service: `ValidationError` (entity
constructor throws), `ConflictException` (duplicate email),
`NotFoundError` (Prisma update on a missing row), `StorageError`
(backend unavailable or constraint violation). -/
inductive AppError where
  | validation (msg : String)
  | conflict (msg : String)
  | notFound (msg : String)
  | storage (msg : String)
  deriving DecidableEq, Repr

/-- The persisted `users` table: a list of rows, each carrying the five
columns `id, email, name, createdAt, updatedAt`. -/
abbrev Store := List UserData

/-- Reconstruction of a `User` entity from a database row, as every
repository read/write does with `new User(row.id, row.email, row.name,
row.createdAt, row.updatedAt)`; a validation throw becomes a
`ValidationError`. -/
def rowToEntity (r : UserData) : Except AppError UserData :=
  match userNew r.id r.email r.name r.createdAt r.updatedAt with
  | .error m => .error (.validation m)
  | .ok u => .ok u

/-- Embeds `prisma.user.create`: raises a storage error when the backend is
down or when the row would violate the primary-key/unique constraints
on `id` and `email`; otherwise inserts the row with the two timestamp
columns assigned by the database (`dbNow`) and echoes it. -/
def prismaCreate (backendUp : Bool) (store : Store) (dbNow : Nat)
    (u : UserData) : Except AppError (Store × UserData) :=
  if !backendUp then .error (.storage "backend unavailable")
  else if store.any (fun r => r.id == u.id || r.email == u.email) then
    .error (.storage "unique constraint violation")
  else
    let row : UserData := ⟨u.id, u.email, u.name, dbNow, dbNow⟩
    .ok (store ++ [row], row)

/-- Embeds `UserRepository.create`: persists via Prisma and reconstructs the
entity from the echoed row (running the validator again). -/
def repoCreate (backendUp : Bool) (store : Store) (dbNow : Nat)
    (u : UserData) : Except AppError (Store × UserData) :=
  match prismaCreate backendUp store dbNow u with
  | .error e => .error e
  | .ok (store2, row) =>
      match rowToEntity row with
      | .error e => .error e
      | .ok v => .ok (store2, v)

/-- Embeds `prisma.user.findUnique({ where: { email } })`: the row with the
given email, or none. -/
def prismaFindByEmail (backendUp : Bool) (store : Store) (email : Str) :
    Except AppError (Option UserData) :=
  if !backendUp then .error (.storage "backend unavailable")
  else .ok (store.find? (fun r => r.email == email))

/-- Embeds `UserRepository.findByEmail`: looks the row up and reconstructs the
entity (running the validator) when one is found. -/
def repoFindByEmail (backendUp : Bool) (store : Store) (email : Str) :
    Except AppError (Option UserData) :=
  match prismaFindByEmail backendUp store email with
  | .error e => .error e
  | .ok none => .ok none
  | .ok (some r) =>
      match rowToEntity r with
      | .error e => .error e
      | .ok u => .ok (some u)

/-- Embeds `prisma.user.findUnique({ where: { id } })`: the row with the given
id, or none. -/
def prismaFindById (backendUp : Bool) (store : Store) (id : Str) :
    Except AppError (Option UserData) :=
  if !backendUp then .error (.storage "backend unavailable")
  else .ok (store.find? (fun r => r.id == id))

/-- Embeds `UserRepository.findById`: looks the row up and reconstructs the
entity when one is found. -/
def repoFindById (backendUp : Bool) (store : Store) (id : Str) :
    Except AppError (Option UserData) :=
  match prismaFindById backendUp store id with
  | .error e => .error e
  | .ok none => .ok none
  | .ok (some r) =>
      match rowToEntity r with
      | .error e => .error e
      | .ok u => .ok (some u)

/-- Embeds `UserRepository.findAll`: all rows ordered by `createdAt`
descending, each reconstructed into an entity. -/
def repoFindAll (backendUp : Bool) (store : Store) :
    Except AppError (List UserData) :=
  if !backendUp then .error (.storage "backend unavailable")
  else (store.mergeSort (fun a b => decide (b.createdAt ≤ a.createdAt))).mapM rowToEntity

/-- Embeds `prisma.user.update`: raises `NotFoundError` (Prisma P2025) when no
row matches the id; otherwise replaces the email and name of the
matching row and refreshes its `updatedAt` column, echoing the updated
row. -/
def prismaUpdate (backendUp : Bool) (store : Store) (dbNow : Nat)
    (u : UserData) : Except AppError (Store × UserData) :=
  if !backendUp then .error (.storage "backend unavailable")
  else match store.find? (fun r => r.id == u.id) with
  | none => .error (.notFound "record to update not found")
  | some r =>
      let row : UserData := ⟨r.id, u.email, u.name, r.createdAt, dbNow⟩
      .ok (store.map (fun s => if s.id == u.id then row else s), row)

/-- Embeds `UserRepository.update`: updates via Prisma (errors propagate
unmodified, there is no catch) and reconstructs the echoed row. -/
def repoUpdate (backendUp : Bool) (store : Store) (dbNow : Nat)
    (u : UserData) : Except AppError (Store × UserData) :=
  match prismaUpdate backendUp store dbNow u with
  | .error e => .error e
  | .ok (store2, row) =>
      match rowToEntity row with
      | .error e => .error e
      | .ok v => .ok (store2, v)

/-- Embeds `prisma.user.delete`: raises `NotFoundError` (Prisma P2025) when no
row matches the id, a storage error when the backend is down, and
otherwise removes the matching row. -/
def prismaDelete (backendUp : Bool) (store : Store) (id : Str) :
    Except AppError Store :=
  if !backendUp then .error (.storage "backend unavailable")
  else if store.any (fun r => r.id == id) then
    .ok (store.filter (fun r => !(r.id == id)))
  else .error (.notFound "record to delete not found")

/-- Embeds `UserRepository.delete`: wraps the Prisma call in
`try { ...; return true } catch (error) { return false }` — every
error, including a storage failure, is swallowed and turned into
`false`. -/
def repoDelete (backendUp : Bool) (store : Store) (id : Str) :
    Store × Bool :=
  match prismaDelete backendUp store id with
  | .ok store2 => (store2, true)
  | .error _ => (store, false)

/-- Embeds `UserRepository.existsByEmail`: a lookup selecting only the id,
returning whether a row matched. -/
def repoExistsByEmail (backendUp : Bool) (store : Store) (email : Str) :
    Except AppError Bool :=
  if !backendUp then .error (.storage "backend unavailable")
  else .ok (store.any (fun r => r.email == email))

/-- Embeds `CreateUserUseCase.generateId`:
`` `user_${Date.now()}_${Math.random().toString(36).substr(2, 9)}` ``.
`Date.now()` is the epoch milliseconds `nowMs`; `randRepr` is the
string `Math.random().toString(36)` produced for the drawn random
value, of which `substr(2, 9)` keeps at most nine characters starting
at index 2. -/
def generateId (nowMs : Nat) (randRepr : Str) : Str :=
  "user_".data ++ (Nat.repr nowMs).data ++ "_".data ++ ((randRepr.drop 2).take 9)

/-- The response DTO (`UserResponseDto`): copies the five entity fields
verbatim. -/
structure UserResponse where
  id : Str
  email : Str
  name : Str
  createdAt : Nat
  updatedAt : Nat
  deriving DecidableEq, Repr

/-- Embeds `CreateUserUseCase.execute`: duplicate-email check, id generation,
entity construction (full validation), persistence, response shaping.
The resulting store is returned in every case so that writes — and
their absence — are observable; every error propagates unmodified. -/
def execute (backendUp : Bool) (store : Store) (email name : Str)
    (nowMs dbNow : Nat) (randRepr : Str) :
    Store × Except AppError UserResponse :=
  match repoFindByEmail backendUp store email with
  | .error e => (store, .error e)
  | .ok (some _) =>
      (store, .error (.conflict "User with this email already exists"))
  | .ok none =>
      match userNew (generateId nowMs randRepr) email name nowMs nowMs with
      | .error m => (store, .error (.validation m))
      | .ok u =>
          match repoCreate backendUp store dbNow u with
          | .error e => (store, .error e)
          | .ok (store2, created) =>
              (store2, .ok ⟨created.id, created.email, created.name,
                created.createdAt, created.updatedAt⟩)

/-- The six validator rules of `User.validate`, indexed in their fixed
source order (0-based): id trimmed-nonempty, email trimmed-nonempty,
email format, name trimmed-nonempty, name length at least 2, name
length at most 100.  `ruleOk k` holds when rule `k` passes. -/
def ruleOk : Fin 6 → Str → Str → Str → Bool
  | ⟨0, _⟩, id, _, _ => !(jsTrim id).isEmpty
  | ⟨1, _⟩, _, email, _ => !(jsTrim email).isEmpty
  | ⟨2, _⟩, _, email, _ => isValidEmail email
  | ⟨3, _⟩, _, _, name => !(jsTrim name).isEmpty
  | ⟨4, _⟩, _, _, name => decide (2 ≤ name.length)
  | ⟨5, _⟩, _, _, name => decide (name.length ≤ 100)

/-- The error message attached to each validator rule. -/
def ruleMsg : Fin 6 → String
  | ⟨0, _⟩ => "User ID cannot be empty"
  | ⟨1, _⟩ => "User email cannot be empty"
  | ⟨2, _⟩ => "User email must be a valid email address"
  | ⟨3, _⟩ => "User name cannot be empty"
  | ⟨4, _⟩ => "User name must be at least 2 characters long"
  | ⟨5, _⟩ => "User name must not exceed 100 characters"

theorem validate_ok_conditions (u : UserData) :
    validate u = .ok () ↔
      ((jsTrim u.id).isEmpty = false ∧ (jsTrim u.email).isEmpty = false ∧
       isValidEmail u.email = true ∧ (jsTrim u.name).isEmpty = false ∧
       ¬(u.name.length < 2) ∧ ¬(u.name.length > 100)) := by
  unfold validate
  split_ifs with h1 h2 h3 h4 h5 h6 <;> simp_all

theorem validate_eq_ok_iff (u : UserData) :
    validate u = .ok () ↔ ∀ k : Fin 6, ruleOk k u.id u.email u.name = true := by
  rw [validate_ok_conditions]
  constructor
  · rintro ⟨a, b, c, d, e, f⟩ k
    fin_cases k <;> simp [ruleOk, *] <;> omega
  · intro h
    have h0 := h 0
    have h1 := h 1
    have h2 := h 2
    have h3 := h 3
    have h4 := h 4
    have h5 := h 5
    simp only [ruleOk] at h0 h1 h2 h3 h4 h5
    refine ⟨by simp_all, by simp_all, by simp_all, by simp_all, ?_, ?_⟩ <;>
      simp_all

theorem userNew_ok (id email name : Str) (cAt uAt : Nat) (u : UserData)
    (h : userNew id email name cAt uAt = .ok u) :
    u = ⟨id, email, name, cAt, uAt⟩ ∧ validate u = .ok () := by
  unfold userNew at h
  cases hv : validate ⟨id, email, name, cAt, uAt⟩ <;> rw [hv] at h <;> simp_all

theorem userNew_ok_of_rules (id email name : Str) (cAt uAt : Nat)
    (h : ∀ k : Fin 6, ruleOk k id email name = true) :
    userNew id email name cAt uAt = .ok ⟨id, email, name, cAt, uAt⟩ := by
  have hv : validate ⟨id, email, name, cAt, uAt⟩ = .ok () :=
    (validate_eq_ok_iff _).2 h
  unfold userNew
  rw [hv]

/-- C2: for any `(id, email, name)` violating validator rule `k` while
satisfying rules `1..k-1` (in the fixed source order: id nonempty after
trim, email nonempty after trim, email pattern, name nonempty after
trim, name length at least 2, name length at most 100), construction
fails with exactly rule `k`'s message; in particular a one-character
name fails rule 5, not rule 4. -/
theorem validator_first_failing_rule_message (id email name : Str)
    (cAt uAt : Nat) (k : Fin 6)
    (hprev : ∀ j : Fin 6, j < k → ruleOk j id email name = true)
    (hk : ruleOk k id email name = false) :
    validate ⟨id, email, name, cAt, uAt⟩ = .error (ruleMsg k) := by
  fin_cases k
  · simp only [ruleOk] at hk
    unfold validate
    simp_all [ruleMsg]
  · have h0 := hprev 0 (by decide)
    simp only [ruleOk] at hk h0
    unfold validate
    simp_all [ruleMsg]
  · have h0 := hprev 0 (by decide)
    have h1 := hprev 1 (by decide)
    simp only [ruleOk] at hk h0 h1
    unfold validate
    simp_all [ruleMsg]
  · have h0 := hprev 0 (by decide)
    have h1 := hprev 1 (by decide)
    have h2 := hprev 2 (by decide)
    simp only [ruleOk] at hk h0 h1 h2
    unfold validate
    simp_all [ruleMsg]
  · have h0 := hprev 0 (by decide)
    have h1 := hprev 1 (by decide)
    have h2 := hprev 2 (by decide)
    have h3 := hprev 3 (by decide)
    simp only [ruleOk] at hk h0 h1 h2 h3
    unfold validate
    simp_all [ruleMsg]
  · have h0 := hprev 0 (by decide)
    have h1 := hprev 1 (by decide)
    have h2 := hprev 2 (by decide)
    have h3 := hprev 3 (by decide)
    have h4 := hprev 4 (by decide)
    simp only [ruleOk] at hk h0 h1 h2 h3 h4
    unfold validate
    simp_all [ruleMsg]

/-- Witness for C2 at the boundary the claim singles out: the name
`"J"` of length 1 passes rules 1–4 and fails rule 5 with the rule-5
message. -/
theorem validator_first_failing_rule_message_witness :
    (∀ j : Fin 6, j < (4 : Fin 6) → ruleOk j ("id1".data) ("a@b.com".data) ("J".data) = true) ∧
    ruleOk 4 ("id1".data) ("a@b.com".data) ("J".data) = false ∧
    validate ⟨"id1".data, "a@b.com".data, "J".data, 0, 0⟩ =
      .error "User name must be at least 2 characters long" := by
  refine ⟨by decide, by decide, ?_⟩
  exact validator_first_failing_rule_message _ _ _ 0 0 4 (by decide) (by decide)

/-- C3: for all `(id, email, name)` satisfying the six validator rules,
construction succeeds and the constructed value's fields equal the
inputs exactly — no trimming or normalization is applied. -/
theorem valid_construction_preserves_fields (id email name : Str)
    (cAt uAt : Nat)
    (h : ∀ k : Fin 6, ruleOk k id email name = true) :
    userNew id email name cAt uAt = .ok ⟨id, email, name, cAt, uAt⟩ :=
  userNew_ok_of_rules id email name cAt uAt h

/-- Witness for C3: a concrete valid input (note the untrimmed spaces
around the name are preserved verbatim in the constructed value). -/
theorem valid_construction_preserves_fields_witness :
    (∀ k : Fin 6, ruleOk k ("id1".data) ("a@b.com".data) (" Jo ".data) = true) ∧
    userNew ("id1".data) ("a@b.com".data) (" Jo ".data) 3 4 =
      .ok ⟨"id1".data, "a@b.com".data, " Jo ".data, 3, 4⟩ :=
  ⟨by decide, valid_construction_preserves_fields _ _ _ 3 4 (by decide)⟩

/-- C10: the name length bounds are checked on the raw untrimmed
string: whenever the trimmed name is nonempty and the raw length lies
in `[2, 100]`, construction succeeds (given a valid id and email), even
when the trimmed length is below 2. -/
theorem name_bounds_use_raw_length (id email name : Str) (cAt uAt : Nat)
    (hid : (jsTrim id).isEmpty = false)
    (hem : (jsTrim email).isEmpty = false)
    (hfmt : isValidEmail email = true)
    (hname : (jsTrim name).isEmpty = false)
    (hlo : 2 ≤ name.length) (hhi : name.length ≤ 100) :
    userNew id email name cAt uAt = .ok ⟨id, email, name, cAt, uAt⟩ := by
  apply userNew_ok_of_rules
  intro k
  fin_cases k <;> simp_all [ruleOk]

/-- Witness for C10 at the claim's example: the name `" J"` has raw
length 2 but trimmed length 1, and is accepted. -/
theorem name_bounds_use_raw_length_witness :
    (jsTrim (" J".data)).length = 1 ∧ (" J".data : Str).length = 2 ∧
    userNew ("u1".data) ("a@b.com".data) (" J".data) 0 0 =
      .ok ⟨"u1".data, "a@b.com".data, " J".data, 0, 0⟩ := by
  refine ⟨by decide, by decide, ?_⟩
  exact name_bounds_use_raw_length _ _ _ 0 0 (by decide) (by decide)
    (by decide) (by decide) (by decide) (by decide)

theorem rowToEntity_ok (r u : UserData) (h : rowToEntity r = .ok u) :
    u = r ∧ validate u = .ok () := by
  unfold rowToEntity at h
  cases hv : userNew r.id r.email r.name r.createdAt r.updatedAt <;>
    rw [hv] at h <;> simp_all
  obtain ⟨rfl, hval⟩ := userNew_ok _ _ _ _ _ _ hv
  exact ⟨rfl, hval⟩

/-- C9: a `User` value is never observable in an invalid state — the
constructor validates unconditionally and rejects on failure, so every
`User` produced by construction, row reconstruction, repository
create/findByEmail, the derived updates, or a successful run of the
create-user use case satisfies all six validator rules. -/
theorem user_values_always_valid :
    (∀ id email name cAt uAt u,
       userNew id email name cAt uAt = .ok u → validate u = .ok ()) ∧
    (∀ r u, rowToEntity r = .ok u → validate u = .ok ()) ∧
    (∀ b s d v s2 u, repoCreate b s d v = .ok (s2, u) → validate u = .ok ()) ∧
    (∀ b s e u, repoFindByEmail b s e = .ok (some u) → validate u = .ok ()) ∧
    (∀ u n now v, UserData.updateName u n now = .ok v → validate v = .ok ()) ∧
    (∀ u e now v, UserData.updateEmail u e now = .ok v → validate v = .ok ()) ∧
    (∀ b s email name nm dn rr s2 resp,
       execute b s email name nm dn rr = (s2, .ok resp) →
       validate ⟨resp.id, resp.email, resp.name, resp.createdAt,
         resp.updatedAt⟩ = .ok ()) := by
  have hnew : ∀ id email name cAt uAt u,
      userNew id email name cAt uAt = .ok u → validate u = .ok () :=
    fun id email name cAt uAt u h => (userNew_ok _ _ _ _ _ _ h).2
  have hrow : ∀ r u, rowToEntity r = .ok u → validate u = .ok () :=
    fun r u h => (rowToEntity_ok _ _ h).2
  have hcreate : ∀ b s d v s2 u,
      repoCreate b s d v = .ok (s2, u) → validate u = .ok () := by
    intro b s d v s2 u h
    unfold repoCreate at h
    split at h
    · exact absurd h (by simp)
    · split at h
      · exact absurd h (by simp)
      next v2 heq2 =>
        simp only [Except.ok.injEq, Prod.mk.injEq] at h
        obtain ⟨rfl, rfl⟩ := h
        exact hrow _ _ heq2
  refine ⟨hnew, hrow, hcreate, ?_, ?_, ?_, ?_⟩
  · intro b s e u h
    unfold repoFindByEmail at h
    split at h
    · exact absurd h (by simp)
    · exact absurd h (by simp)
    · split at h
      · exact absurd h (by simp)
      next u2 heq2 =>
        simp only [Except.ok.injEq, Option.some.injEq] at h
        subst h
        exact hrow _ _ heq2
  · intro u n now v h
    exact hnew _ _ _ _ _ _ h
  · intro u e now v h
    exact hnew _ _ _ _ _ _ h
  · intro b s email name nm dn rr s2 resp h
    unfold execute at h
    split at h
    · exact absurd h (by simp)
    · exact absurd h (by simp)
    · split at h
      · exact absurd h (by simp)
      next u hu =>
        split at h
        · exact absurd h (by simp)
        next p hc =>
          obtain ⟨s3, created⟩ := p
          simp only [Prod.mk.injEq, Except.ok.injEq] at h
          obtain ⟨rfl, rfl⟩ := h
          exact hcreate _ _ _ _ _ _ hc

/-- Witness for C9: a concrete successful construction yields a value
satisfying the validator. -/
theorem user_values_always_valid_witness :
    validate ⟨"id1".data, "a@b.com".data, "Jo".data, 5, 6⟩ = .ok () :=
  user_values_always_valid.1 ("id1".data) ("a@b.com".data) ("Jo".data)
    5 6 _ (by decide)

/-- C8: for a valid `User` and a candidate name/email accepted by the
validator, `updateName`/`updateEmail` return a new instance whose
updated field equals the candidate, whose id and createdAt equal the
original's, and whose updatedAt is the fresh time; each operation is
exactly a constructor call, so the full six-rule validator is re-run on
the candidate (and, the operations being pure functions to a new value,
the original is not mutated). -/
theorem update_ops_contract (u : UserData) (n e : Str) (now : Nat)
    (hu : validate u = .ok ()) :
    (UserData.updateName u n now = userNew u.id u.email n u.createdAt now) ∧
    (UserData.updateEmail u e now = userNew u.id e u.name u.createdAt now) ∧
    ((jsTrim n).isEmpty = false → 2 ≤ n.length → n.length ≤ 100 →
       UserData.updateName u n now = .ok ⟨u.id, u.email, n, u.createdAt, now⟩) ∧
    ((jsTrim e).isEmpty = false → isValidEmail e = true →
       UserData.updateEmail u e now = .ok ⟨u.id, e, u.name, u.createdAt, now⟩) := by
  have hr := (validate_eq_ok_iff u).1 hu
  have h0 := hr 0
  have h1 := hr 1
  have h2 := hr 2
  have h3 := hr 3
  have h4 := hr 4
  have h5 := hr 5
  simp only [ruleOk] at h0 h1 h2 h3 h4 h5
  refine ⟨rfl, rfl, ?_, ?_⟩
  · intro hn1 hn2 hn3
    unfold UserData.updateName
    apply userNew_ok_of_rules
    intro k
    fin_cases k <;> simp_all [ruleOk]
  · intro he1 he2
    unfold UserData.updateEmail
    apply userNew_ok_of_rules
    intro k
    fin_cases k <;> simp_all [ruleOk]

/-- Witness for C8: renaming and re-emailing a concrete valid user. -/
theorem update_ops_contract_witness :
    validate ⟨"id1".data, "a@b.com".data, "Jo".data, 1, 1⟩ = .ok () ∧
    UserData.updateName ⟨"id1".data, "a@b.com".data, "Jo".data, 1, 1⟩
        ("Max".data) 9 =
      .ok ⟨"id1".data, "a@b.com".data, "Max".data, 1, 9⟩ ∧
    UserData.updateEmail ⟨"id1".data, "a@b.com".data, "Jo".data, 1, 1⟩
        ("x@y.z".data) 9 =
      .ok ⟨"id1".data, "x@y.z".data, "Jo".data, 1, 9⟩ :=
  ⟨by decide,
   (update_ops_contract _ ("Max".data) ("x@y.z".data) 9 (by decide)).2.2.1
     (by decide) (by decide) (by decide),
   (update_ops_contract _ ("Max".data) ("x@y.z".data) 9 (by decide)).2.2.2
     (by decide) (by decide)⟩

/-- C6: with the backend up, `delete(id)` on an id with no matching row
returns `false` without raising an error, and on a present id removes
the matching row and returns `true` (afterwards no row with that id
remains). -/
theorem delete_missing_false_present_true (store : Store) (id : Str) :
    (store.any (fun r => r.id == id) = false →
       repoDelete true store id = (store, false)) ∧
    (store.any (fun r => r.id == id) = true →
       repoDelete true store id =
         (store.filter (fun r => !(r.id == id)), true) ∧
       (store.filter (fun r => !(r.id == id))).any
         (fun r => r.id == id) = false) := by
  constructor
  · intro h
    unfold repoDelete prismaDelete
    simp [h]
  · intro h
    refine ⟨?_, ?_⟩
    · unfold repoDelete prismaDelete
      simp [h]
    · rw [List.any_eq_false]
      intro x hx
      have hpx := (List.mem_filter.mp hx).2
      simp_all

/-- Witness for C6: a one-row store; deleting a missing id returns
`false`, deleting the present id empties the store and returns
`true`. -/
theorem delete_missing_false_present_true_witness :
    repoDelete true [⟨"u1".data, "a@b.c".data, "Jo".data, 0, 0⟩]
        ("nope".data) =
      ([⟨"u1".data, "a@b.c".data, "Jo".data, 0, 0⟩], false) ∧
    repoDelete true [⟨"u1".data, "a@b.c".data, "Jo".data, 0, 0⟩]
        ("u1".data) = ([], true) :=
  ⟨(delete_missing_false_present_true _ _).1 (by decide),
   by
    have h := ((delete_missing_false_present_true
      [⟨"u1".data, "a@b.c".data, "Jo".data, 0, 0⟩] ("u1".data)).2
      (by decide)).1
    simpa using h⟩

/-- Counterexample for C5: `UserRepository.delete` wraps the Prisma
call in a catch-all, so with the backend unavailable the Prisma layer
raises a storage error yet `delete` returns `false` instead of failing
— the error is suppressed, contradicting both "delete may fail with a
StorageError" and "no layer suppresses an error from a lower layer". -/
theorem delete_suppresses_storage_error :
    prismaDelete false [] ("u1".data) =
      .error (.storage "backend unavailable") ∧
    repoDelete false [] ("u1".data) = ([], false) := by
  constructor <;> rfl

/-- C5 (amended): every repository operation except `delete` fails with
a storage error when the backend is unavailable, and the use case
passes the error through unmodified; `delete` alone catches every
error — storage failure included — and returns `false`. -/
theorem backend_down_error_propagation (s : Store) (id email n rr : Str)
    (d nm : Nat) (u : UserData) :
    repoCreate false s d u = .error (.storage "backend unavailable") ∧
    repoFindByEmail false s email =
      .error (.storage "backend unavailable") ∧
    repoFindById false s id = .error (.storage "backend unavailable") ∧
    repoFindAll false s = .error (.storage "backend unavailable") ∧
    repoUpdate false s d u = .error (.storage "backend unavailable") ∧
    repoExistsByEmail false s email =
      .error (.storage "backend unavailable") ∧
    repoDelete false s id = (s, false) ∧
    execute false s email n nm d rr =
      (s, .error (.storage "backend unavailable")) := by
  refine ⟨rfl, rfl, rfl, ?_, rfl, rfl, rfl, rfl⟩
  unfold repoFindAll
  rfl

/-- A well-formed store: every persisted row satisfies the entity
validator (the invariant maintained by the system, which only writes
validated entities). -/
def WFStore (s : Store) : Prop := ∀ r ∈ s, validate r = .ok ()

/-- C1: if the (well-formed) store contains a row whose email equals
`e`, the create-user use case fails with `ConflictError` carrying
"User with this email already exists" and leaves the store unchanged;
the outcome is the same for every name, clock value and random draw, so
no generated id or constructed entity influences it and no write
happens. -/
theorem duplicate_email_conflict (store : Store) (e : Str)
    (hwf : WFStore store) (hmem : ∃ r ∈ store, r.email = e) :
    ∀ name nowMs dbNow randRepr,
      execute true store e name nowMs dbNow randRepr =
        (store, .error (.conflict "User with this email already exists")) := by
  intro name nowMs dbNow randRepr
  obtain ⟨r0, hr0, he0⟩ := hmem
  have hsome : (store.find? (fun r => r.email == e)).isSome := by
    rw [List.find?_isSome]
    exact ⟨r0, hr0, by simp [he0]⟩
  obtain ⟨r1, hr1⟩ := Option.isSome_iff_exists.mp hsome
  have hr1valid : validate r1 = .ok () :=
    hwf r1 (List.mem_of_find?_eq_some hr1)
  have hrow : rowToEntity r1 = .ok r1 := by
    unfold rowToEntity userNew
    rw [show (⟨r1.id, r1.email, r1.name, r1.createdAt, r1.updatedAt⟩ :
      UserData) = r1 from rfl]
    rw [hr1valid]
  have hfb : repoFindByEmail true store e = .ok (some r1) := by
    unfold repoFindByEmail prismaFindByEmail
    simp [hr1, hrow]
  unfold execute
  rw [hfb]

/-- Witness for C1: a concrete one-user store; re-creating with the
same email conflicts and the store is unchanged. -/
theorem duplicate_email_conflict_witness :
    execute true [⟨"u1".data, "a@b.com".data, "Jo".data, 0, 0⟩]
        ("a@b.com".data) ("Other".data) 7 8 ("0.abcdefghij".data) =
      ([⟨"u1".data, "a@b.com".data, "Jo".data, 0, 0⟩],
       .error (.conflict "User with this email already exists")) :=
  duplicate_email_conflict _ _
    (by intro r hr; simp at hr; subst hr; decide)
    ⟨⟨"u1".data, "a@b.com".data, "Jo".data, 0, 0⟩, by simp, rfl⟩
    ("Other".data) 7 8 ("0.abcdefghij".data)

/-- Modelled from the spec's words for the email rule: "three
non-space segments separated by `@` and then `.`" — each segment is a
nonempty run of non-space characters (nothing else is excluded). -/
def specEmailPattern (s : Str) : Prop :=
  ∃ a b c : Str, a ≠ [] ∧ b ≠ [] ∧ c ≠ [] ∧
    (∀ ch ∈ a ++ b ++ c, ¬ch.isWhitespace) ∧
    s = a ++ '@' :: (b ++ '.' :: c)

/-- The decomposition actually matched by the source regular
expression `^[^\s@]+@[^\s@]+\.[^\s@]+$`: three nonempty segments whose
characters are neither whitespace nor `@`. -/
def regexEmailPattern (s : Str) : Prop :=
  ∃ a b c : Str, a ≠ [] ∧ b ≠ [] ∧ c ≠ [] ∧
    (∀ ch ∈ a ++ b ++ c, emailChar ch = true) ∧
    s = a ++ '@' :: (b ++ '.' :: c)

theorem takeWhile_append_cons {p : Char → Bool} (a : Str) (x : Char)
    (r : Str) (ha : ∀ ch ∈ a, p ch = true) (hx : p x = false) :
    (a ++ x :: r).takeWhile p = a := by
  induction a with
  | nil => simp [List.takeWhile_cons_of_neg, hx]
  | cons y ys ih =>
    have hy : p y = true := ha y (by simp)
    simp only [List.cons_append, List.takeWhile_cons_of_pos hy]
    rw [ih (fun ch hch => ha ch (by simp [hch]))]

theorem dropWhile_append_cons {p : Char → Bool} (a : Str) (x : Char)
    (r : Str) (ha : ∀ ch ∈ a, p ch = true) (hx : p x = false) :
    (a ++ x :: r).dropWhile p = x :: r := by
  induction a with
  | nil => simp [List.dropWhile_cons_of_neg, hx]
  | cons y ys ih =>
    have hy : p y = true := ha y (by simp)
    simp only [List.cons_append, List.dropWhile_cons_of_pos hy]
    exact ih (fun ch hch => ha ch (by simp [hch]))

theorem dropWhile_head_false {p : Char → Bool} :
    ∀ (l : Str) (hd : Char) (tl : Str),
      l.dropWhile p = hd :: tl → p hd = false := by
  intro l
  induction l with
  | nil => simp [List.dropWhile]
  | cons x xs ih =>
    intro hd tl h
    by_cases hx : p x = true
    · rw [List.dropWhile_cons_of_pos hx] at h
      exact ih _ _ h
    · rw [List.dropWhile_cons_of_neg hx] at h
      cases h
      simpa using hx

theorem mem_dropLast_decomp {x : Char} :
    ∀ l : Str, x ∈ l.dropLast → ∃ u v, l = u ++ x :: v ∧ v ≠ [] := by
  intro l
  induction l with
  | nil => simp
  | cons a m ih =>
    intro h
    cases m with
    | nil => simp at h
    | cons b m2 =>
      rw [show (a :: b :: m2).dropLast = a :: (b :: m2).dropLast by simp]
        at h
      rcases List.mem_cons.mp h with rfl | h2
      · exact ⟨[], b :: m2, by simp, by simp⟩
      · obtain ⟨u, v, huv, hv⟩ := ih h2
        exact ⟨a :: u, v, by rw [List.cons_append, ← huv], hv⟩

theorem isValidEmail_iff_regexEmailPattern (s : Str) :
    isValidEmail s = true ↔ regexEmailPattern s := by
  constructor
  · intro h
    unfold isValidEmail at h
    split at h
    · exact absurd h (by simp)
    next x domain heq =>
      simp only [Bool.and_eq_true] at h
      obtain ⟨⟨⟨hne, hlws⟩, hdall⟩, hdot⟩ := h
      have hx : x = '@' := by
        have := dropWhile_head_false _ _ _ heq
        simpa using this
      have hs : s.takeWhile (fun c => c != '@') ++ x :: domain = s := by
        rw [← heq]
        exact List.takeWhile_append_dropWhile _ _
      have hmemdot : '.' ∈ (domain.drop 1).dropLast := List.elem_iff.mp hdot
      cases domain with
      | nil => simp at hmemdot
      | cons d0 tail =>
        simp only [List.drop_succ_cons, List.drop_zero] at hmemdot
        obtain ⟨u, v, huv, hvne⟩ := mem_dropLast_decomp tail hmemdot
        have hdom : d0 :: tail = (d0 :: u) ++ '.' :: v := by
          rw [huv]
          simp
        refine ⟨s.takeWhile (fun c => c != '@'), d0 :: u, v, ?_,
          by simp, hvne, ?_, ?_⟩
        · intro hnil
          rw [hnil] at hne
          simp at hne
        · intro ch hch
          have hch3 : ch ∈ s.takeWhile (fun c => c != '@') ∨
              ch ∈ d0 :: u ∨ ch ∈ v := by
            simpa [List.mem_append, or_assoc] using hch
          rcases hch3 with hch2 | hch2 | hch2
          · have hp := List.mem_takeWhile_imp hch2
            have hws := (List.all_eq_true.mp hlws) ch hch2
            simp only [emailChar, Bool.and_eq_true]
            exact ⟨by simpa using hws, by simpa using hp⟩
          · have hmem : ch ∈ d0 :: tail := by
              rw [hdom]
              exact List.mem_append_left _ hch2
            exact (List.all_eq_true.mp hdall) ch hmem
          · have hmem : ch ∈ d0 :: tail := by
              rw [hdom]
              exact List.mem_append_right _ (List.mem_cons_of_mem _ hch2)
            exact (List.all_eq_true.mp hdall) ch hmem
        · conv_lhs => rw [← hs]
          rw [hx, hdom]
  · rintro ⟨a, b, c, ha, hb, hc, hall, rfl⟩
    have hpa : ∀ ch ∈ a, (ch != '@') = true := by
      intro ch hch
      have := hall ch (by simp [hch])
      simp only [emailChar, Bool.and_eq_true] at this
      simpa using this.2
    have hpx : (('@' : Char) != '@') = false := by decide
    have htake := takeWhile_append_cons a '@' (b ++ '.' :: c) hpa hpx
    have hdrop := dropWhile_append_cons a '@' (b ++ '.' :: c) hpa hpx
    unfold isValidEmail
    rw [hdrop]
    simp only [Bool.and_eq_true]
    refine ⟨⟨⟨?_, ?_⟩, ?_⟩, ?_⟩
    · rw [htake]
      simpa using ha
    · rw [htake]
      rw [List.all_eq_true]
      intro ch hch
      have := hall ch (by simp [hch])
      simp only [emailChar, Bool.and_eq_true] at this
      exact this.1
    · rw [List.all_eq_true]
      intro ch hch
      rcases List.mem_append.mp hch with hch2 | hch2
      · exact hall ch (by simp [hch2])
      · rcases List.mem_cons.mp hch2 with rfl | hch3
        · decide
        · exact hall ch (by simp [hch3])
    · cases b with
      | nil => exact absurd rfl hb
      | cons b0 bs =>
        cases c with
        | nil => exact absurd rfl hc
        | cons c0 cs =>
          simp only [List.cons_append, List.drop_succ_cons, List.drop_zero]
          rw [List.dropLast_append_cons]
          refine List.elem_iff.mpr ?_
          exact List.mem_append_right _ (by simp)

/-- Counterexample for C4: the string `"a@b@c.d"` is nonempty after
trimming and decomposes into three nonempty non-space segments
separated by `@` and then `.` (take `a@b`, `c`, `d` — the claim's
segments exclude only spaces, so `a@b` is a legal segment), yet the
entity validator rejects it: the regex segments also exclude `@`. -/
theorem email_pattern_claim_counterexample :
    (jsTrim ("a@b@c.d".data)).isEmpty = false ∧
    specEmailPattern ("a@b@c.d".data) ∧
    isValidEmail ("a@b@c.d".data) = false := by
  refine ⟨by decide, ⟨"a@b".data, "c".data, "d".data,
    by decide, by decide, by decide, by decide, by decide⟩, by decide⟩

/-- C4 (amended): for every email nonempty after trimming, the
validator accepts it if and only if it splits as three nonempty
segments of characters that are neither whitespace nor `@`, separated
by `@` and then `.`; otherwise construction fails with "User email
must be a valid email address" (given a non-blank id, which is checked
first). -/
theorem email_acceptance_characterization (email : Str)
    (htrim : (jsTrim email).isEmpty = false) :
    (isValidEmail email = true ↔ regexEmailPattern email) ∧
    (∀ id name cAt uAt, (jsTrim id).isEmpty = false →
       isValidEmail email = false →
       validate ⟨id, email, name, cAt, uAt⟩ =
         .error "User email must be a valid email address") := by
  refine ⟨isValidEmail_iff_regexEmailPattern email, ?_⟩
  intro id name cAt uAt hid hbad
  unfold validate
  simp_all

/-- Witness for C4: a concrete accepted email with its regex
decomposition, and a concrete rejected email with the rule-3 error. -/
theorem email_acceptance_characterization_witness :
    regexEmailPattern ("john@example.com".data) ∧
    validate ⟨"id1".data, "bad-email".data, "John".data, 0, 0⟩ =
      .error "User email must be a valid email address" :=
  ⟨(email_acceptance_characterization ("john@example.com".data)
      (by decide)).1.mp (by decide),
   (email_acceptance_characterization ("bad-email".data)
      (by decide)).2 ("id1".data) ("John".data) 0 0 (by decide) (by decide)⟩

/-- A base-36 digit as produced by JavaScript `toString(36)`: a decimal
digit or a lowercase letter. -/
def isBase36 (c : Char) : Bool :=
  c.isDigit || ('a' ≤ c && c ≤ 'z')

/-- Modelled from the spec for the random draw: the string
`Math.random().toString(36)` for a value in `[0, 1)` is `"0"` when the
draw is exactly zero (ECMA-262 `Number::toString` returns `"0"` for
zero in every radix) and otherwise `"0."` followed by a nonempty run of
lowercase base-36 digits. -/
def validRandRepr (r : Str) : Prop :=
  r = "0".data ∨
    ∃ ds : Str, ds ≠ [] ∧ (∀ ch ∈ ds, isBase36 ch = true) ∧
      r = "0.".data ++ ds

/-- The identifier format asserted by the claim: the literal `user_`,
one or more decimal digits, an underscore, and exactly nine base-36
characters. -/
def claimedIdFormat (s : Str) : Bool :=
  s.take 5 == "user_".data &&
  (!((s.drop 5).takeWhile Char.isDigit).isEmpty) &&
  (match (s.drop 5).drop ((s.drop 5).takeWhile Char.isDigit).length with
   | '_' :: suffix => suffix.length == 9 && suffix.all isBase36
   | _ => false)

/-- Counterexample for C7: when the random draw is exactly zero its
`toString(36)` is `"0"`, `substr(2, 9)` of it is empty, and the
generated identifier `user_<millis>_` has a zero-length suffix, not
nine base-36 characters. -/
theorem generated_id_format_counterexample :
    validRandRepr ("0".data) ∧
    claimedIdFormat (generateId 1700000000000 ("0".data)) = false :=
  ⟨Or.inl rfl, by decide⟩

/-- C7 (amended): every generated identifier is the literal `user_`,
the decimal epoch milliseconds, an underscore, and a random suffix of
at most nine base-36 characters (the base-36 fractional digits of the
draw truncated by `substr(2, 9)`; shorter — even empty — when the
representation has fewer than eleven characters). -/
theorem generated_id_format (nowMs : Nat) (randRepr : Str)
    (h : validRandRepr randRepr) :
    ∃ suffix : Str,
      generateId nowMs randRepr =
        "user_".data ++ (Nat.repr nowMs).data ++ '_' :: suffix ∧
      suffix.length ≤ 9 ∧ ∀ ch ∈ suffix, isBase36 ch = true := by
  rcases h with rfl | ⟨ds, hne, hds, rfl⟩
  · refine ⟨[], ?_, by simp, by simp⟩
    unfold generateId
    simp
  · refine ⟨ds.take 9, ?_, ?_, ?_⟩
    · unfold generateId
      simp
    · rw [List.length_take]
      exact min_le_left _ _
    · intro ch hch
      exact hds ch (List.take_subset _ _ hch)

/-- Witness for C7 (amended) at a concrete clock value and an
eleven-character random representation, where the suffix is exactly
the nine kept characters. -/
theorem generated_id_format_witness :
    ∃ suffix : Str,
      generateId 3 ("0.abc123xyz9".data) =
        "user_".data ++ (Nat.repr 3).data ++ '_' :: suffix ∧
      suffix.length ≤ 9 ∧ ∀ ch ∈ suffix, isBase36 ch = true :=
  generated_id_format 3 ("0.abc123xyz9".data)
    (Or.inr ⟨"abc123xyz9".data, by decide, by decide, by decide⟩)

